import Mathlib

/-!
Shallow embedding of `jina/logging/profile.py`.

Modelling conventions:
* Clock values (`time.perf_counter()` readings) are passed explicitly as
  rational parameters; each distinct call of `perf_counter` in the source
  becomes a distinct parameter.
* Python `float` arithmetic is modelled over `ℚ` (the claims are about
  control flow and exact accumulation arithmetic, not rounding).
* Python dictionaries backed by `defaultdict(float)` become total functions
  `String → ℚ` (reads of missing keys yield `0`); `first_start_time` is only
  ever tested for membership and written, so it is modelled as
  `String → Option ℚ`.
* `self._key_stack` (a Python list used with `append`/`pop()`/`[-1]`) is
  modelled as a Lean `List` with its head as the top of the stack.
* Exceptions raised by Python (IndexError from `list.pop()` on an empty
  list, ZeroDivisionError from `x / 0.0`) are modelled with `Except PyErr`.
* Writes to `sys.stdout` and logger calls become a list of events `Ev`.
* External formatting collaborators that live outside this file
  (`get_readable_size`, `get_readable_time`, `str(datetime.timedelta(...))`)
  are passed as function parameters `String`-valued on `ℚ`.
-/

/-- Python exception kinds relevant to this module.  `stateError` is the
clearly-named contract-violation error the specification asks for; the
reference code never raises it. -/
inductive PyErr where
  | indexError
  | zeroDivisionError
  | stateError
  deriving DecidableEq, Repr

/-- The structured content of one rendered progress-bar line
(`ProgressBar.update`, the final `sys.stdout.write`); the glyph row written
is `'━' * num_fullbars` then the half-bar `'╸'`, then
`'━' * (bars_on_row - num_fullbars)` dimmed, each piece run through the
external `colored` collaborator with the stored colors. -/
structure RenderLine where
  description : String
  num_fullbars : ℤ
  num_halfbars : ℕ
  bar_color : String
  unfinished_bar_color : String
  time_str : String
  speed_str : String
  msg : String
  deriving DecidableEq, Repr

/-- Output events: raw `sys.stdout.write` calls, one structured bar-line
write, `sys.stdout.flush`, and `logger.info` calls. -/
inductive Ev where
  | write (s : String)
  | writeBar (r : RenderLine)
  | flush
  | logInfo (s : String)
  deriving DecidableEq, Repr

/-- State of `TimeDict` (`profile.py`, `class TimeDict`): four time mappings,
the active-key stack and the pending-reset flag. -/
structure TimeDict where
  accum_time : String → ℚ
  first_start_time : String → Option ℚ
  start_time : String → ℚ
  end_time : String → ℚ
  key_stack : List String
  pending_reset : Bool

namespace TimeDict

/-- `TimeDict.__init__`: empty defaultdicts, empty stack, no pending reset. -/
def init : TimeDict :=
  { accum_time := fun _ => 0
    first_start_time := fun _ => none
    start_time := fun _ => 0
    end_time := fun _ => 0
    key_stack := []
    pending_reset := false }

/-- `TimeDict.__call__(key)`: push `key` onto the key stack. -/
def callKey (key : String) (d : TimeDict) : TimeDict :=
  { d with key_stack := key :: d.key_stack }

/-- `TimeDict.reset()`: with a non-empty stack only mark the reset pending;
with an empty stack clear all four mappings, the stack and the flag. -/
def reset (d : TimeDict) : TimeDict :=
  if d.key_stack ≠ [] then
    { d with pending_reset := true }
  else
    init

/-- `TimeDict.__enter__`: read the top of the key stack (`IndexError` when
empty); `t₁` is the `perf_counter()` read stored into `first_start_time` on
the first-ever entry of the key, `t₂` the read stored into `start_time`. -/
def enter (t₁ t₂ : ℚ) (d : TimeDict) : Except PyErr TimeDict :=
  match d.key_stack with
  | [] => .error .indexError
  | k :: _ =>
      .ok { d with
        first_start_time := fun x =>
          if (d.first_start_time k).isSome then d.first_start_time x
          else if x = k then some t₁ else d.first_start_time x
        start_time := fun x => if x = k then t₂ else d.start_time x }

/-- `TimeDict.__exit__`: pop the top key (`IndexError` when the stack is
empty), record `end_time[key] = t`, add `end_time[key] - start_time[key]`
to `accum_time[key]`, then run the pending reset if one was requested. -/
def exit (t : ℚ) (d : TimeDict) : Except PyErr TimeDict :=
  match d.key_stack with
  | [] => .error .indexError
  | k :: rest =>
      let d' : TimeDict :=
        { d with
          key_stack := rest
          end_time := fun x => if x = k then t else d.end_time x
          accum_time := fun x =>
            if x = k then d.accum_time k + (t - d.start_time k)
            else d.accum_time x }
      .ok (if d'.pending_reset then d'.reset else d')

end TimeDict

/-- State of `TimeContext` (task name, optional logger, start timestamp,
duration).  The logger collaborator is modelled by its presence only; its
`info` calls become `Ev.logInfo` events. -/
structure TimeContext where
  task_name : String
  logger : Bool
  start : ℚ
  duration : ℚ

namespace TimeContext

/-- `TimeContext.__init__(task_name, logger)`. -/
def init (task_name : String) (logger : Bool) : TimeContext :=
  { task_name := task_name, logger := logger, start := 0, duration := 0 }

/-- `TimeContext._enter_msg`: with a logger, `logger.info(task_name + '...')`;
without, `print(task_name, end=' ...\t', flush=True)` — one stdout write of
the task name directly followed by the end-string `" ...\t"` (no newline),
then a flush. -/
def enterMsg (task_name : String) (logger : Bool) : List Ev :=
  if logger then [.logInfo (task_name ++ "...")]
  else [.write (task_name ++ " ...\t"), .flush]

/-- `TimeContext.__enter__` at clock reading `now`: record the start
timestamp, then emit the enter message. -/
def enter (now : ℚ) (s : TimeContext) : TimeContext × List Ev :=
  ({ s with start := now }, enterMsg s.task_name s.logger)

end TimeContext

/-- Python float `%` with a positive right operand: `a - b * ⌊a / b⌋`,
the representative of `a` modulo `b` lying in `[0, b)`. -/
def pymod (a b : ℚ) : ℚ := a - b * ⌊a / b⌋

/-- Round half to even (the rounding of Python `format(x, '.Nf')`),
applied to the exact rational value. -/
def roundHalfEven (q : ℚ) : ℤ :=
  let f := ⌊q⌋
  let frac := q - f
  if frac < 1/2 then f
  else if 1/2 < frac then f + 1
  else if f % 2 = 0 then f else f + 1

/-- Python `f'{q:.0f}'` over the exact rational value. -/
def fmtF0 (q : ℚ) : String := toString (roundHalfEven q)

/-- Python `f'{q:3.1f}'` over the exact rational value: one decimal digit,
round half to even, padded with spaces to width 3 (the padding never fires
for a non-negative value, whose shortest form `d.d` is already 3 wide). -/
def fmt1f (q : ℚ) : String :=
  let n := roundHalfEven (q * 10)
  let core :=
    if n < 0 then
      "-" ++ toString ((-n) / 10) ++ "." ++ toString ((-n) % 10)
    else
      toString (n / 10) ++ "." ++ toString (n % 10)
  if core.length < 3 then
    String.mk (List.replicate (3 - core.length) ' ') ++ core
  else core

/-- Python string `or`-chaining: the left operand unless it is falsy
(the empty string), else the right operand. -/
def pyOrS (a b : String) : String := if a = "" then b else a

/-- `message_on_done`: absent, a literal string, or a zero-argument
callable producing a string. -/
inductive OnDone where
  | none
  | str (s : String)
  | fn (f : Unit → String)

/-- State of `ProgressBar`: the `TimeContext` fields (logger fixed to
absent) plus the progress counters and configuration of `__init__`. -/
structure PBState where
  task_name : String
  start : ℚ
  duration : ℚ
  bars_on_row : ℚ
  completed_progress : ℚ
  last_rendered_progress : ℚ
  num_update_called : ℕ
  on_done : OnDone

namespace ProgressBar

/-- `ProgressBar.__init__(description, message_on_done)`. -/
def init (description : String) (message_on_done : OnDone) : PBState :=
  { task_name := description
    start := 0
    duration := 0
    bars_on_row := 40
    completed_progress := 0
    last_rendered_progress := 0
    num_update_called := 0
    on_done := message_on_done }

/-- `ProgressBar.clear_line`: `'\r{}\r'.format(' ' * col_width)` with
`col_width = 100`. -/
def clear_line : String := "\r" ++ String.mk (List.replicate 100 ' ') ++ "\r"

/-- Lines 248–253 of `profile.py`: `num_bars = completed % bars_on_row`,
then `bars_on_row if not num_bars and completed else max(num_bars, 1)`
(`not num_bars` is Python truthiness: `num_bars == 0.0`; `and completed`
is truthy iff `completed != 0.0`). -/
def num_bars (completed bars_on_row : ℚ) : ℚ :=
  let nb := pymod completed bars_on_row
  if nb = 0 ∧ completed ≠ 0 then bars_on_row else max nb 1

/-- The rate label of `ProgressBar.update`: `'estimating...'` when
`first_enter`, else `f'{num_update_called / elapsed:3.1f} step/s'` — a
division with no guard, raising `ZeroDivisionError` when `elapsed` is 0. -/
def speedStr (first_enter : Bool) (num_update_called : ℕ) (elapsed : ℚ) :
    Except PyErr String :=
  if first_enter then .ok "estimating..."
  else if elapsed = 0 then .error .zeroDivisionError
  else .ok (fmt1f ((num_update_called : ℚ) / elapsed) ++ " step/s")

/-- `ProgressBar.update(progress, description, message, all_completed,
first_enter)` at clock reading `now`.  `fmtDelta` is the external
`str(datetime.timedelta(seconds=...)).split('.')[0]` collaborator.
On `ZeroDivisionError` the events already written before the raise
(the line clear) are dropped from the model. -/
def update (fmtDelta : ℚ → String) (now : ℚ) (progress : ℚ)
    (description message : Option String)
    (all_completed first_enter : Bool) (s : PBState) :
    Except PyErr (PBState × List Ev) :=
  let s := { s with
    num_update_called := s.num_update_called + (if first_enter then 0 else 1)
    completed_progress := s.completed_progress + progress }
  if |s.completed_progress - s.last_rendered_progress| < 1/2 ∧
      all_completed = false then
    .ok (s, [])
  else
    let s := { s with last_rendered_progress := s.completed_progress }
    let elapsed := now - s.start
    let nb := num_bars s.completed_progress s.bars_on_row
    let num_fullbars : ℤ := ⌊nb⌋
    let num_halfbars : ℕ := if nb - num_fullbars ≤ 1/2 then 1 else 0
    let bar_color := if all_completed then "yellow" else "green"
    let unfinished_bar_color := if all_completed then "yellow" else "green"
    let time_str := if first_enter then "-:--:--" else fmtDelta elapsed
    match speedStr first_enter s.num_update_called elapsed with
    | .error e => .error e
    | .ok sp =>
        let description_str := pyOrS (description.getD "") (pyOrS s.task_name "")
        let msg_str := message.getD ""
        .ok (s,
          [.write clear_line,
           .writeBar
             { description := description_str
               num_fullbars := num_fullbars
               num_halfbars := num_halfbars
               bar_color := bar_color
               unfinished_bar_color := unfinished_bar_color
               time_str := time_str
               speed_str := sp
               msg := msg_str },
           .flush])

/-- `ProgressBar._enter_msg` preceded by `TimeContext.__enter__`'s
`self.start = time.perf_counter()`: record the start timestamp, then
`self.update(first_enter=True)` with the default `progress=1.0`. -/
def enter (fmtDelta : ℚ → String) (now : ℚ) (s : PBState) :
    Except PyErr (PBState × List Ev) :=
  update fmtDelta now 1 .none .none false true { s with start := now }

/-- The `final_msg` computation of `ProgressBar._exit_msg`: the default
`f'\x1b[K{completed_progress:.0f} steps done in {readable_duration}'`,
replaced by `message_on_done` when it is truthy — a non-empty literal
string is taken as is, a callable is invoked (`if self._on_done:` is
falsy for the empty string). -/
def finalMsg (s : PBState) (readable_duration : String) : String :=
  let m := "\x1b[K" ++ fmtF0 s.completed_progress ++ " steps done in " ++
    readable_duration
  match s.on_done with
  | .none => m
  | .str msg => if msg = "" then m else msg
  | .fn f => f ()

/-- `ProgressBar._exit_msg`: with `last_rendered_progress > 1` compose the
final message, force `update(0, all_completed=True)` (at clock reading
`now`), write the final message then a newline; otherwise write only the
line clear.  Both branches end in a flush. -/
def exitMsg (fmtDelta : ℚ → String) (now : ℚ) (readable_duration : String)
    (s : PBState) : Except PyErr (PBState × List Ev) :=
  if s.last_rendered_progress > 1 then
    let final := finalMsg s readable_duration
    match update fmtDelta now 0 .none .none true false s with
    | .error e => .error e
    | .ok (s', evs) => .ok (s', evs ++ [.write final, .write "\n", .flush])
  else
    .ok (s, [.write clear_line, .flush])

/-- `TimeContext.__exit__` as inherited by `ProgressBar`: compute
`duration = now₁ - start` and its readable rendering through the external
`get_readable_time` collaborator `fmtDur`, then run `_exit_msg` (whose
inner `update` reads the clock again, at `now₂`). -/
def exit (fmtDur fmtDelta : ℚ → String) (now₁ now₂ : ℚ) (s : PBState) :
    Except PyErr (PBState × List Ev) :=
  let s := { s with duration := now₁ - s.start }
  exitMsg fmtDelta now₂ (fmtDur s.duration) s

end ProgressBar

/-- The `arg_wrapper` of the `profiling` decorator.  The wrapped callable
is `func : α → Except ε β`; `fmtSize` is the external `get_readable_size`
collaborator, `fmtT` the `f'{elapsed}'` float rendering; `startT, endT`
are the two `perf_counter()` reads and `startMem, endMem` the two
`used_memory(unit=1)` reads.  A raise in `func` propagates before the end
readings and the log line; on success exactly one line is logged through
`default_logger.info`. -/
def profiling (fmtSize : ℚ → String) (fmtT : ℚ → String)
    (qualname : String) (startT endT startMem endMem : ℚ)
    (func : α → Except ε β) (x : α) : Except ε (β × List Ev) :=
  match func x with
  | .error e => .error e
  | .ok r =>
      let elapsed := endT - startT
      let mem_status := "memory Δ " ++ fmtSize (endMem - startMem) ++ " " ++
        fmtSize startMem ++ " -> " ++ fmtSize endMem
      .ok (r, [.logInfo (" " ++ qualname ++ " time: " ++ fmtT elapsed ++
        "s " ++ mem_status)])

namespace TimeDict

/-- C1: entering the same key twice before exiting accumulates the sum of
both interior durations (each being `end_time[key] - start_time[key]` as
recorded at its exit) into the single `accum_time` entry for that key,
not an overwrite; and in general each exit pops the top key, records
`end_time[key]`, and adds `end_time[key] - start_time[key]` to
`accum_time[key]`. -/
theorem exit_accumulates_and_nested_same_key_sums :
    (∀ (d : TimeDict) (k : String) (rest : List String) (t : ℚ),
      d.key_stack = k :: rest → d.pending_reset = false →
      ∃ d', d.exit t = .ok d' ∧
        d'.key_stack = rest ∧
        d'.end_time k = t ∧
        d'.accum_time k = d.accum_time k + (t - d.start_time k)) ∧
    (∀ (k : String) (t₁ t₂ t₃ t₄ t₅ t₆ : ℚ),
      ∃ d,
        ((((init.callKey k).enter t₁ t₂).bind fun a =>
          ((a.callKey k).enter t₃ t₄).bind fun b =>
          (b.exit t₅).bind fun c =>
          c.exit t₆) = .ok d) ∧
        d.accum_time k = (t₅ - t₄) + (t₆ - t₄) ∧
        (∀ k', k' ≠ k → d.accum_time k' = 0) ∧
        d.key_stack = []) := by
  constructor
  · intro d k rest t hk hp
    obtain ⟨ac, fs, st, et, ks, pr⟩ := d
    dsimp only at hk hp ⊢
    subst hk; subst hp
    refine ⟨_, rfl, rfl, ?_, ?_⟩ <;> simp [exit]
  · intro k t₁ t₂ t₃ t₄ t₅ t₆
    refine ⟨_, rfl, ?_, ?_, rfl⟩
    · simp [init, callKey, enter, exit, reset, Except.bind]
    · intro k' hk'
      simp [init, callKey, enter, exit, reset, Except.bind, hk']

/-- C1 witness: the general exit step on the one-deep stack `["a"]`, and
the nested double-entry run on key `"a"` with clock readings 0..5, whose
accumulated time is `(4 - 3) + (5 - 3) = 3`. -/
theorem exit_accumulates_and_nested_same_key_sums_wit :
    (∃ d', (init.callKey "a").exit 2 = .ok d' ∧
        d'.key_stack = [] ∧
        d'.end_time "a" = 2 ∧
        d'.accum_time "a" = (init.callKey "a").accum_time "a" +
          (2 - (init.callKey "a").start_time "a")) ∧
    (∃ d,
        ((((init.callKey "a").enter 0 1).bind fun a =>
          ((a.callKey "a").enter 2 3).bind fun b =>
          (b.exit 4).bind fun c =>
          c.exit 5) = .ok d) ∧
        d.accum_time "a" = (4 - 3) + (5 - 3) ∧
        (∀ k', k' ≠ "a" → d.accum_time k' = 0) ∧
        d.key_stack = []) :=
  ⟨exit_accumulates_and_nested_same_key_sums.1 (init.callKey "a") "a" [] 2
      rfl rfl,
    exit_accumulates_and_nested_same_key_sums.2 "a" 0 1 2 3 4 5⟩

/-- C2: `reset()` under a non-empty key stack only marks the reset pending
(no mapping or stack is touched); `reset()` under an empty stack clears
everything immediately; a pending reset is executed exactly when the
outermost open scope exits (stack of depth 1), and is deferred — kept
pending, state uncleared — when an inner scope exits (depth ≥ 2). -/
theorem reset_deferred_until_outermost_exit :
    (∀ d : TimeDict, d.key_stack ≠ [] →
      d.reset = { d with pending_reset := true }) ∧
    (∀ d : TimeDict, d.key_stack = [] → d.reset = init) ∧
    (∀ (d : TimeDict) (k : String) (t : ℚ),
      d.key_stack = [k] → d.pending_reset = true →
      d.exit t = .ok init) ∧
    (∀ (d : TimeDict) (k k' : String) (rest : List String) (t : ℚ),
      d.key_stack = k :: k' :: rest → d.pending_reset = true →
      ∃ d', d.exit t = .ok d' ∧
        d'.pending_reset = true ∧
        d'.key_stack = k' :: rest ∧
        d'.accum_time k = d.accum_time k + (t - d.start_time k)) := by
  refine ⟨?_, ?_, ?_, ?_⟩
  · intro d h
    simp [reset, h]
  · intro d h
    simp [reset, h]
  · intro d k t hk hp
    obtain ⟨ac, fs, st, et, ks, pr⟩ := d
    dsimp only at hk hp ⊢
    subst hk; subst hp
    simp [exit, reset, init]
  · intro d k k' rest t hk hp
    obtain ⟨ac, fs, st, et, ks, pr⟩ := d
    dsimp only at hk hp ⊢
    subst hk; subst hp
    refine ⟨_, rfl, ?_, ?_, ?_⟩ <;> simp [exit, reset]

/-- C2 witness: reset on a one-deep stack defers; reset on the empty stack
clears; a pending reset fires on the outermost exit and stays pending on
an inner exit. -/
theorem reset_deferred_until_outermost_exit_wit :
    ((init.callKey "a").reset
        = { init.callKey "a" with pending_reset := true }) ∧
    (init.reset = init) ∧
    (((init.callKey "a").reset).exit 7 = .ok init) ∧
    (∃ d', (((init.callKey "b").callKey "a").reset).exit 7 = .ok d' ∧
        d'.pending_reset = true ∧
        d'.key_stack = ["b"] ∧
        d'.accum_time "a" = (((init.callKey "b").callKey "a").reset).accum_time "a" +
          (7 - (((init.callKey "b").callKey "a").reset).start_time "a")) :=
  ⟨reset_deferred_until_outermost_exit.1 (init.callKey "a") (by simp [init, callKey]),
   reset_deferred_until_outermost_exit.2.1 init rfl,
   reset_deferred_until_outermost_exit.2.2.1 ((init.callKey "a").reset) "a" 7
     rfl rfl,
   reset_deferred_until_outermost_exit.2.2.2 (((init.callKey "b").callKey "a").reset)
     "a" "b" [] 7 rfl rfl⟩

end TimeDict

namespace TimeDict

/-- C6 counterexample: exiting with an empty key stack fails, but through
`list.pop()`'s `IndexError`, not through a clearly named `StateError` —
the reference code has no such guard. -/
theorem exit_empty_stack_is_indexError_not_stateError :
    TimeDict.init.exit 0 = .error .indexError ∧
    TimeDict.init.exit 0 ≠ .error .stateError := by
  refine ⟨rfl, ?_⟩
  simp [TimeDict.exit, TimeDict.init]

/-- C6 (amended): exiting a `TimeDict` scope when the key stack is empty
fails — with the unnamed `IndexError` of popping an empty Python list;
no `StateError` guard exists in the reference. -/
theorem exit_empty_stack_fails (t : ℚ) (d : TimeDict)
    (h : d.key_stack = []) : d.exit t = .error .indexError := by
  obtain ⟨ac, fs, st, et, ks, pr⟩ := d
  dsimp only at h
  subst h
  rfl

/-- C6 witness: the freshly initialised `TimeDict` has an empty stack and
its exit fails with `IndexError`. -/
theorem exit_empty_stack_fails_wit :
    TimeDict.init.exit 3 = .error .indexError :=
  exit_empty_stack_fails 3 TimeDict.init rfl

end TimeDict

namespace ProgressBar

/-- The state produced by a call of `ProgressBar.update` that reaches the
rendering branch: both counters stepped, `last_rendered_progress` synced
to the new `completed_progress`. -/
def updatedState (progress : ℚ) (first_enter : Bool) (s : PBState) : PBState :=
  { s with
    num_update_called := s.num_update_called + (if first_enter then 0 else 1)
    completed_progress := s.completed_progress + progress
    last_rendered_progress := s.completed_progress + progress }

/-- The bar line rendered by such a call. -/
def renderLineOf (fmtDelta : ℚ → String) (now progress : ℚ)
    (description message : Option String) (all_completed first_enter : Bool)
    (s : PBState) : RenderLine :=
  let c := s.completed_progress + progress
  let nb := num_bars c s.bars_on_row
  { description := pyOrS (description.getD "") (pyOrS s.task_name "")
    num_fullbars := ⌊nb⌋
    num_halfbars := if nb - ⌊nb⌋ ≤ 1/2 then 1 else 0
    bar_color := if all_completed then "yellow" else "green"
    unfinished_bar_color := if all_completed then "yellow" else "green"
    time_str := if first_enter then "-:--:--" else fmtDelta (now - s.start)
    speed_str :=
      if first_enter then "estimating..."
      else fmt1f (((s.num_update_called + 1 : ℕ) : ℚ) / (now - s.start)) ++
        " step/s"
    msg := message.getD "" }

/-- Helper: the exact result of `ProgressBar.update` on the rendering
branch, provided the rate division does not raise. -/
theorem update_render_eq (fmtDelta : ℚ → String) (now progress : ℚ)
    (description message : Option String) (all_completed first_enter : Bool)
    (s : PBState)
    (hc : ¬(|s.completed_progress + progress - s.last_rendered_progress| < 1/2 ∧
      all_completed = false))
    (hz : first_enter = false → now - s.start ≠ 0) :
    update fmtDelta now progress description message all_completed first_enter s =
      .ok (updatedState progress first_enter s,
        [.write clear_line,
         .writeBar (renderLineOf fmtDelta now progress description message
           all_completed first_enter s),
         .flush]) := by
  obtain ⟨tn, st, du, br, cp, lr, nu, od⟩ := s
  dsimp only at hc hz ⊢
  have hc' : |cp + progress - lr| < 2⁻¹ → all_completed = true := by
    intro h
    cases all_completed with
    | true => rfl
    | false => exact absurd ⟨by linarith, rfl⟩ hc
  cases first_enter with
  | false =>
      have hne := hz rfl
      simp [update, speedStr, updatedState, renderLineOf, num_bars, hne]
      exact hc'
  | true =>
      simp [update, speedStr, updatedState, renderLineOf, num_bars]
      exact hc'

end ProgressBar

namespace ProgressBar

/-- C3: an `update` call whose post-increment completed-progress counter
differs from the last rendered value by less than 0.5 in absolute value,
with `all_completed` false, skips rendering entirely — no output event,
only the two counters change; a call with `all_completed` true always
renders (line clear, bar line, flush), whatever the delta. -/
theorem update_throttles_and_all_completed_always_renders :
    (∀ (fmtDelta : ℚ → String) (now progress : ℚ)
        (description message : Option String) (first_enter : Bool)
        (s : PBState),
      |s.completed_progress + progress - s.last_rendered_progress| < 1/2 →
      update fmtDelta now progress description message false first_enter s =
        .ok ({ s with
          num_update_called :=
            s.num_update_called + (if first_enter then 0 else 1)
          completed_progress := s.completed_progress + progress }, [])) ∧
    (∀ (fmtDelta : ℚ → String) (now progress : ℚ)
        (description message : Option String) (first_enter : Bool)
        (s : PBState),
      (first_enter = false → now ≠ s.start) →
      update fmtDelta now progress description message true first_enter s =
        .ok (updatedState progress first_enter s,
          [.write clear_line,
           .writeBar (renderLineOf fmtDelta now progress description message
             true first_enter s),
           .flush])) := by
  constructor
  · intro fmtDelta now progress description message first_enter s h
    obtain ⟨tn, st, du, br, cp, lr, nu, od⟩ := s
    dsimp only at h ⊢
    simp [update, h]
    intro h2
    exact absurd h (not_lt.mpr (by linarith))
  · intro fmtDelta now progress description message first_enter s h
    exact update_render_eq fmtDelta now progress description message true
      first_enter s (by simp) (fun hfe => sub_ne_zero.mpr (h hfe))

/-- C3 witness: on a fresh bar, `update` with `progress = 1/4` (delta 1/4)
is silent, while `update` with `all_completed = true` renders even with a
zero delta. -/
theorem update_throttles_and_all_completed_always_renders_wit :
    (update (fun _ => "") 5 (1/4) Option.none Option.none false false
        (init "w" OnDone.none) =
      .ok ({ init "w" OnDone.none with
        num_update_called :=
          (init "w" OnDone.none).num_update_called + (if false then 0 else 1)
        completed_progress :=
          (init "w" OnDone.none).completed_progress + 1/4 }, [])) ∧
    (update (fun _ => "") 1 0 Option.none Option.none true false
        (init "w" OnDone.none) =
      .ok (updatedState 0 false (init "w" OnDone.none),
        [.write clear_line,
         .writeBar (renderLineOf (fun _ => "") 1 0 Option.none Option.none
           true false (init "w" OnDone.none)),
         .flush])) :=
  ⟨update_throttles_and_all_completed_always_renders.1 (fun _ => "") 5 (1/4)
      Option.none Option.none false (init "w" OnDone.none)
      (by simp [init, abs_lt]; norm_num),
   update_throttles_and_all_completed_always_renders.2 (fun _ => "") 1 0
      Option.none Option.none false (init "w" OnDone.none)
      (fun _ => by simp [init])⟩

end ProgressBar

namespace ProgressBar

/-- C5 counterexample: at `completed_progress = 40.5` the remainder mod 40
is `0.5` — positive, not a multiple of 40 — so the claim says
`num_bars = 0.5`; the code's `max(num_bars, 1)` yields `1` instead. -/
theorem num_bars_positive_fractional_remainder_counterexample :
    pymod (81/2 : ℚ) 40 = 1/2 ∧
    num_bars (81/2 : ℚ) 40 = 1 ∧
    ((1 : ℚ) ≠ 1/2) := by
  have hf : ⌊(81 : ℚ)/2/40⌋ = 1 := by
    rw [Int.floor_eq_iff] <;> norm_num
  have hp : pymod (81/2 : ℚ) 40 = 1/2 := by
    rw [pymod, hf]; norm_num
  refine ⟨hp, ?_, by norm_num⟩
  simp only [num_bars, hp]
  norm_num

/-- C5 (amended): `num_bars` equals the remainder `completed mod 40` only
when that remainder is at least 1; a zero remainder with nonzero progress
(a nonzero multiple of 40) gives the full row of 40; every other
remainder — all of `[0, 1)`, not merely the non-positive ones — is raised
to 1 by `max(num_bars, 1)`.  In a rendering `update`, the filled-bar count
of the written line is `⌊num_bars⌋` and the half-bar glyph is present
exactly when the fractional remainder `num_bars - ⌊num_bars⌋` is ≤ 0.5. -/
theorem num_bars_semantics_and_bar_split :
    (∀ c : ℚ, 1 ≤ pymod c 40 → num_bars c 40 = pymod c 40) ∧
    (∀ c : ℚ, c ≠ 0 → pymod c 40 = 0 → num_bars c 40 = 40) ∧
    (∀ c : ℚ, pymod c 40 < 1 → ¬(pymod c 40 = 0 ∧ c ≠ 0) →
      num_bars c 40 = 1) ∧
    (∀ (fmtDelta : ℚ → String) (now progress : ℚ)
        (description message : Option String) (ac fe : Bool) (s : PBState),
      ¬(|s.completed_progress + progress - s.last_rendered_progress| < 1/2 ∧
        ac = false) →
      (fe = false → now ≠ s.start) →
      ∃ s' r, update fmtDelta now progress description message ac fe s =
          .ok (s', [.write clear_line, .writeBar r, .flush]) ∧
        r.num_fullbars =
          ⌊num_bars (s.completed_progress + progress) s.bars_on_row⌋ ∧
        (r.num_halfbars = 1 ↔
          num_bars (s.completed_progress + progress) s.bars_on_row -
            ⌊num_bars (s.completed_progress + progress) s.bars_on_row⌋ ≤
              1/2)) := by
  refine ⟨?_, ?_, ?_, ?_⟩
  · intro c h
    have h0 : pymod c 40 ≠ 0 := by
      intro he
      rw [he] at h
      linarith
    simp only [num_bars]
    rw [if_neg (fun hand => h0 hand.1)]
    exact max_eq_left h
  · intro c hc hp
    simp [num_bars, hp, hc]
  · intro c h1 h2
    simp only [num_bars]
    rw [if_neg h2]
    exact max_eq_right (le_of_lt h1)
  · intro fmtDelta now progress description message ac fe s hc hz
    refine ⟨updatedState progress fe s,
      renderLineOf fmtDelta now progress description message ac fe s,
      update_render_eq fmtDelta now progress description message ac fe s hc
        (fun hfe => sub_ne_zero.mpr (hz hfe)), rfl, ?_⟩
    simp only [renderLineOf]
    split_ifs with h
    · simpa using h
    · simpa using h

/-- C5 witness: a remainder of 5 is taken as is; 80 (a nonzero multiple of
40) gives the full row; 40.5 is raised to 1; and a rendering update on a
fresh bar writes `⌊num_bars⌋` full bars with the half-bar iff the
fractional remainder is ≤ 0.5. -/
theorem num_bars_semantics_and_bar_split_wit :
    (num_bars 5 40 = pymod 5 40) ∧
    (num_bars 80 40 = 40) ∧
    (num_bars (81/2 : ℚ) 40 = 1) ∧
    (∃ s' r, update (fun _ => "") 1 0 Option.none Option.none true false
          (init "w" OnDone.none) =
        .ok (s', [.write clear_line, .writeBar r, .flush]) ∧
      r.num_fullbars =
        ⌊num_bars ((init "w" OnDone.none).completed_progress + 0)
          (init "w" OnDone.none).bars_on_row⌋ ∧
      (r.num_halfbars = 1 ↔
        num_bars ((init "w" OnDone.none).completed_progress + 0)
            (init "w" OnDone.none).bars_on_row -
          ⌊num_bars ((init "w" OnDone.none).completed_progress + 0)
            (init "w" OnDone.none).bars_on_row⌋ ≤ 1/2)) :=
  ⟨num_bars_semantics_and_bar_split.1 5
      (by
        have hf : ⌊(5 : ℚ)/40⌋ = 0 := by rw [Int.floor_eq_iff] <;> norm_num
        rw [pymod, hf]; norm_num),
   num_bars_semantics_and_bar_split.2.1 80 (by norm_num)
      (by
        have hf : ⌊(80 : ℚ)/40⌋ = 2 := by rw [Int.floor_eq_iff] <;> norm_num
        rw [pymod, hf]; norm_num),
   num_bars_semantics_and_bar_split.2.2.1 (81/2)
      (by
        have hf : ⌊(81 : ℚ)/2/40⌋ = 1 := by rw [Int.floor_eq_iff] <;> norm_num
        rw [pymod, hf]; norm_num)
      (by
        have hf : ⌊(81 : ℚ)/2/40⌋ = 1 := by rw [Int.floor_eq_iff] <;> norm_num
        rw [pymod, hf]; norm_num),
   num_bars_semantics_and_bar_split.2.2.2 (fun _ => "") 1 0
      Option.none Option.none true false (init "w" OnDone.none)
      (by simp) (fun _ => by simp [init])⟩

end ProgressBar

namespace ProgressBar

/-- A `ProgressBar` state that has really rendered (`last_rendered > 1`)
and carries the empty string as `message_on_done`. -/
def onDoneEmptyState : PBState :=
  { task_name := "t"
    start := 0
    duration := 0
    bars_on_row := 40
    completed_progress := 2
    last_rendered_progress := 2
    num_update_called := 1
    on_done := OnDone.str "" }

/-- C4 counterexample: with `message_on_done` the literal string `""`, the
exit prints the default summary, not the override — `if self._on_done:` is
falsy on the empty string, so "overridden by message_on_done as a literal
string" fails at this input. -/
theorem exitMsg_on_done_empty_string_counterexample :
    exitMsg (fun _ => "d") 1 "r" onDoneEmptyState =
      .ok (updatedState 0 false onDoneEmptyState,
        [.write clear_line,
         .writeBar (renderLineOf (fun _ => "d") 1 0 Option.none Option.none
           true false onDoneEmptyState),
         .flush,
         .write (finalMsg onDoneEmptyState "r"),
         .write "\n", .flush]) ∧
    finalMsg onDoneEmptyState "r" = "\x1b[K2 steps done in r" ∧
    ("\x1b[K2 steps done in r" : String) ≠ "" := by
  have hR : roundHalfEven 2 = 2 := by
    norm_num [roundHalfEven]
  have hF : fmtF0 2 = "2" := by
    rw [fmtF0, hR]
    rfl
  refine ⟨?_, ?_, by decide⟩
  · simp only [exitMsg]
    rw [if_pos (by norm_num [onDoneEmptyState])]
    rw [update_render_eq (fun _ => "d") 1 0 Option.none Option.none true
      false onDoneEmptyState (by simp) (fun _ => by norm_num [onDoneEmptyState])]
    rfl
  · simp only [finalMsg, onDoneEmptyState]
    rw [if_pos trivial, hF]
    rfl

/-- C4 (amended): on exit, with `last_rendered_progress ≤ 1` (no real
render) only the line clear and a flush are written, no summary; with
`last_rendered_progress > 1` the final message is composed — the default
`'\x1b[K{completed:.0f} steps done in {readable}'` when `message_on_done`
is absent, a NON-EMPTY literal string taken as is, a callable invoked —
one final `all_completed` render is forced through
`update(0, all_completed=True)`, and the final message plus a newline are
printed. -/
theorem exitMsg_semantics :
    (∀ (fmtDelta : ℚ → String) (now : ℚ) (readable : String) (s : PBState),
      s.last_rendered_progress ≤ 1 →
      exitMsg fmtDelta now readable s = .ok (s, [.write clear_line, .flush])) ∧
    (∀ (fmtDelta : ℚ → String) (now : ℚ) (readable : String) (s : PBState),
      s.last_rendered_progress > 1 → now ≠ s.start →
      exitMsg fmtDelta now readable s =
        .ok (updatedState 0 false s,
          [.write clear_line,
           .writeBar (renderLineOf fmtDelta now 0 Option.none Option.none
             true false s),
           .flush,
           .write (finalMsg s readable),
           .write "\n", .flush])) ∧
    (∀ (s : PBState) (readable : String), s.on_done = OnDone.none →
      finalMsg s readable =
        "\x1b[K" ++ fmtF0 s.completed_progress ++ " steps done in " ++
          readable) ∧
    (∀ (s : PBState) (readable m : String), s.on_done = OnDone.str m →
      m ≠ "" → finalMsg s readable = m) ∧
    (∀ (s : PBState) (readable : String) (f : Unit → String),
      s.on_done = OnDone.fn f → finalMsg s readable = f ()) := by
  refine ⟨?_, ?_, ?_, ?_, ?_⟩
  · intro fmtDelta now readable s h
    simp only [exitMsg]
    rw [if_neg (not_lt.mpr h)]
  · intro fmtDelta now readable s h hnz
    simp only [exitMsg]
    rw [if_pos h]
    rw [update_render_eq fmtDelta now 0 Option.none Option.none true false s
      (by simp) (fun _ => sub_ne_zero.mpr hnz)]
    rfl
  · intro s readable h
    simp only [finalMsg, h]
  · intro s readable m h hm
    simp only [finalMsg, h]
    rw [if_neg hm]
  · intro s readable f h
    simp only [finalMsg, h]

/-- C4 witness: a fresh bar exits with only a line clear; the
`onDoneEmptyState` bar exits with the forced render and the final
message plus newline; the three `message_on_done` shapes produce the
default, the non-empty literal, and the callable's result. -/
theorem exitMsg_semantics_wit :
    (exitMsg (fun _ => "d") 1 "r" (init "w" OnDone.none) =
      .ok (init "w" OnDone.none, [.write clear_line, .flush])) ∧
    (exitMsg (fun _ => "d") 1 "r" onDoneEmptyState =
      .ok (updatedState 0 false onDoneEmptyState,
        [.write clear_line,
         .writeBar (renderLineOf (fun _ => "d") 1 0 Option.none Option.none
           true false onDoneEmptyState),
         .flush,
         .write (finalMsg onDoneEmptyState "r"),
         .write "\n", .flush])) ∧
    (finalMsg (init "w" OnDone.none) "r" =
      "\x1b[K" ++ fmtF0 (init "w" OnDone.none).completed_progress ++
        " steps done in " ++ "r") ∧
    (finalMsg (init "w" (OnDone.str "m")) "r" = "m") ∧
    (finalMsg (init "w" (OnDone.fn fun _ => "done")) "r" =
      (fun _ : Unit => "done") ()) :=
  ⟨exitMsg_semantics.1 (fun _ => "d") 1 "r" (init "w" OnDone.none)
      (by norm_num [init]),
   exitMsg_semantics.2.1 (fun _ => "d") 1 "r" onDoneEmptyState
      (by norm_num [onDoneEmptyState]) (by norm_num [onDoneEmptyState]),
   exitMsg_semantics.2.2.1 (init "w" OnDone.none) "r" rfl,
   exitMsg_semantics.2.2.2.1 (init "w" (OnDone.str "m")) "r" "m" rfl
      (by decide),
   exitMsg_semantics.2.2.2.2 (init "w" (OnDone.fn fun _ => "done")) "r"
      (fun _ => "done") rfl⟩

end ProgressBar

namespace ProgressBar

/-- C9: `__enter__` calls `update(first_enter=True)` with the default
`progress=1.0`, so immediately after entry `completed_progress = 1` (while
the update-call counter stays 0); every further (non-first-enter) `update`
adds its `progress` to the counter, and the default exit summary prints
`fmtF0` of exactly that counter — the initial unit included. -/
theorem enter_counts_one_unit_reported_in_summary :
    (∀ (fmtDelta : ℚ → String) (now : ℚ) (description : String)
        (od : OnDone),
      enter fmtDelta now (init description od) =
        .ok (updatedState 1 true { init description od with start := now },
          [.write clear_line,
           .writeBar (renderLineOf fmtDelta now 1 Option.none Option.none
             false true { init description od with start := now }),
           .flush]) ∧
      (updatedState 1 true
        { init description od with start := now }).completed_progress = 1 ∧
      (updatedState 1 true
        { init description od with start := now }).num_update_called = 0) ∧
    (∀ (fmtDelta : ℚ → String) (now progress : ℚ)
        (description message : Option String) (first_enter : Bool)
        (s s' : PBState) (evs : List Ev),
      update fmtDelta now progress description message false first_enter s =
        .ok (s', evs) →
      s'.completed_progress = s.completed_progress + progress) ∧
    (∀ (s : PBState) (readable : String), s.on_done = OnDone.none →
      finalMsg s readable =
        "\x1b[K" ++ fmtF0 s.completed_progress ++ " steps done in " ++
          readable) := by
  refine ⟨?_, ?_, ?_⟩
  · intro fmtDelta now description od
    refine ⟨?_, by simp [updatedState, init], by simp [updatedState, init]⟩
    exact update_render_eq fmtDelta now 1 Option.none Option.none false true
      { init description od with start := now }
      (by simp [init, abs_lt]; norm_num) (by simp)
  · intro fmtDelta now progress description message first_enter s s' evs h
    obtain ⟨tn, st, du, br, cp, lr, nu, od⟩ := s
    dsimp only
    simp only [update] at h
    split at h
    · simp only [Except.ok.injEq, Prod.mk.injEq] at h
      rw [← h.1]
    · split at h
      · exact absurd h (by simp)
      · simp only [Except.ok.injEq, Prod.mk.injEq] at h
        rw [← h.1]
  · intro s readable h
    simp only [finalMsg, h]

/-- C9 witness: a fresh bar entered at clock 2 has `completed_progress = 1`
and a still-zero update counter; a rendering user update with
`progress = 1` takes the counter to `0 + 1`; the default summary prints
`fmtF0` of the counter. -/
theorem enter_counts_one_unit_reported_in_summary_wit :
    (enter (fun _ => "") 2 (init "w" OnDone.none) =
        .ok (updatedState 1 true { init "w" OnDone.none with start := 2 },
          [.write clear_line,
           .writeBar (renderLineOf (fun _ => "") 2 1 Option.none Option.none
             false true { init "w" OnDone.none with start := 2 }),
           .flush]) ∧
      (updatedState 1 true
        { init "w" OnDone.none with start := 2 }).completed_progress = 1 ∧
      (updatedState 1 true
        { init "w" OnDone.none with start := 2 }).num_update_called = 0) ∧
    ((updatedState 1 false (init "w" OnDone.none)).completed_progress =
      (init "w" OnDone.none).completed_progress + 1) ∧
    (finalMsg (init "p" OnDone.none) "t" =
      "\x1b[K" ++ fmtF0 (init "p" OnDone.none).completed_progress ++
        " steps done in " ++ "t") :=
  ⟨enter_counts_one_unit_reported_in_summary.1 (fun _ => "") 2 "w"
      OnDone.none,
   enter_counts_one_unit_reported_in_summary.2.1 (fun _ => "") 1 1
      Option.none Option.none false (init "w" OnDone.none)
      (updatedState 1 false (init "w" OnDone.none))
      [.write clear_line,
       .writeBar (renderLineOf (fun _ => "") 1 1 Option.none Option.none
         false false (init "w" OnDone.none)),
       .flush]
      (update_render_eq (fun _ => "") 1 1 Option.none Option.none false
        false (init "w" OnDone.none)
        (by simp [init, abs_lt]; norm_num) (fun _ => by simp [init])),
   enter_counts_one_unit_reported_in_summary.2.2 (init "p" OnDone.none) "t"
      rfl⟩

/-- C10: the rate label of a rendering, non-first-enter `update` divides
the update-call counter by the elapsed time with no zero guard: at
elapsed 0 the computation raises `ZeroDivisionError` (and so does the
whole `update` call when the clock still reads the start time), while for
strictly positive elapsed it is well defined. -/
theorem speed_division_unguarded :
    (∀ n : ℕ, speedStr false n 0 = .error .zeroDivisionError) ∧
    (∀ (n : ℕ) (elapsed : ℚ), 0 < elapsed →
      speedStr false n elapsed =
        .ok (fmt1f ((n : ℚ) / elapsed) ++ " step/s")) ∧
    (∀ (fmtDelta : ℚ → String) (progress : ℚ)
        (description message : Option String) (ac : Bool) (s : PBState),
      ¬(|s.completed_progress + progress - s.last_rendered_progress| < 1/2 ∧
        ac = false) →
      update fmtDelta s.start progress description message ac false s =
        .error .zeroDivisionError) := by
  refine ⟨?_, ?_, ?_⟩
  · intro n
    simp [speedStr]
  · intro n elapsed h
    simp [speedStr, ne_of_gt h]
  · intro fmtDelta progress description message ac s hc
    obtain ⟨tn, st, du, br, cp, lr, nu, od⟩ := s
    dsimp only at hc ⊢
    have hc' : |cp + progress - lr| < 2⁻¹ → ac = true := by
      intro h
      cases ac with
      | true => rfl
      | false => exact absurd ⟨by linarith, rfl⟩ hc
    simp [update, speedStr]
    exact hc'

/-- C10 witness: `speedStr` errors at elapsed 0 and is defined at
elapsed 2; a rendering update whose clock still reads the start time
raises `ZeroDivisionError`. -/
theorem speed_division_unguarded_wit :
    (speedStr false 3 0 = .error .zeroDivisionError) ∧
    (speedStr false 3 2 = .ok (fmt1f ((3 : ℚ) / 2) ++ " step/s")) ∧
    (update (fun _ => "") (init "w" OnDone.none).start 1 Option.none
        Option.none false false (init "w" OnDone.none) =
      .error .zeroDivisionError) :=
  ⟨speed_division_unguarded.1 3,
   speed_division_unguarded.2.1 3 2 (by norm_num),
   speed_division_unguarded.2.2 (fun _ => "") 1 Option.none Option.none
      false (init "w" OnDone.none) (by simp [init, abs_lt]; norm_num)⟩

end ProgressBar

/-- C7: when the wrapped callable raises, the profiling wrapper propagates
the failure unchanged and logs nothing; when it succeeds, the wrapper logs
exactly one line and returns the callable's result unchanged. -/
theorem profiling_propagates_failure_and_logs_once :
    (∀ (α ε β : Type) (fmtSize fmtT : ℚ → String) (qualname : String)
        (startT endT startMem endMem : ℚ) (func : α → Except ε β) (x : α)
        (e : ε),
      func x = .error e →
      profiling fmtSize fmtT qualname startT endT startMem endMem func x =
        .error e) ∧
    (∀ (α ε β : Type) (fmtSize fmtT : ℚ → String) (qualname : String)
        (startT endT startMem endMem : ℚ) (func : α → Except ε β) (x : α)
        (r : β),
      func x = .ok r →
      profiling fmtSize fmtT qualname startT endT startMem endMem func x =
        .ok (r, [Ev.logInfo (" " ++ qualname ++ " time: " ++
          fmtT (endT - startT) ++ "s " ++ ("memory Δ " ++
          fmtSize (endMem - startMem) ++ " " ++ fmtSize startMem ++ " -> " ++
          fmtSize endMem))])) := by
  constructor
  · intro α ε β fmtSize fmtT qualname startT endT startMem endMem func x e h
    simp [profiling, h]
  · intro α ε β fmtSize fmtT qualname startT endT startMem endMem func x r h
    simp [profiling, h]

/-- C7 witness: a callable failing on input 0 propagates its error with no
log line; on input 1 it returns 2 with exactly one log line. -/
theorem profiling_propagates_failure_and_logs_once_wit :
    (profiling (fun _ => "s") (fun _ => "t") "q" 0 1 2 3
        (fun n : ℕ => if n = 0 then (.error "boom" : Except String ℕ)
          else .ok (n + 1)) 0 =
      .error "boom") ∧
    (profiling (fun _ => "s") (fun _ => "t") "q" 0 1 2 3
        (fun n : ℕ => if n = 0 then (.error "boom" : Except String ℕ)
          else .ok (n + 1)) 1 =
      .ok (2, [Ev.logInfo (" " ++ "q" ++ " time: " ++
        (fun _ : ℚ => "t") ((1 : ℚ) - 0) ++ "s " ++ ("memory Δ " ++
        (fun _ : ℚ => "s") ((3 : ℚ) - 2) ++ " " ++
        (fun _ : ℚ => "s") (2 : ℚ) ++ " -> " ++
        (fun _ : ℚ => "s") (3 : ℚ)))])) :=
  ⟨profiling_propagates_failure_and_logs_once.1 ℕ String ℕ
      (fun _ => "s") (fun _ => "t") "q" 0 1 2 3
      (fun n : ℕ => if n = 0 then (.error "boom" : Except String ℕ)
        else .ok (n + 1)) 0 "boom" rfl,
   profiling_propagates_failure_and_logs_once.2 ℕ String ℕ
      (fun _ => "s") (fun _ => "t") "q" 0 1 2 3
      (fun n : ℕ => if n = 0 then (.error "boom" : Except String ℕ)
        else .ok (n + 1)) 1 2 rfl⟩

namespace TimeContext

/-- C8 counterexample: with no logger, the stdout payload for task name
`"x"` is `"x ...\t"` — the task name, a SPACE, then `"...\t"` (the
`end=' ...\t'` argument of `print`) — which differs from the claimed
`task_name` directly followed by `"...\t"`. -/
theorem enterMsg_space_counterexample :
    enterMsg "x" false = [.write "x ...\t", .flush] ∧
    ("x ...\t" : String) ≠ "x" ++ "...\t" := by
  refine ⟨rfl, by decide⟩

/-- C8 (amended): on entry the start timestamp is recorded; with no
logger, one stdout write of the task name followed by the end-string
`" ...\t"` (space, ellipsis, tab — no newline) and an immediate flush;
with a logger, one `info` call of `"{task_name}..."`. -/
theorem enter_records_start_and_emits_message :
    (∀ (now : ℚ) (s : TimeContext), (enter now s).1.start = now) ∧
    (∀ (now : ℚ) (s : TimeContext), s.logger = false →
      (enter now s).2 = [.write (s.task_name ++ " ...\t"), .flush]) ∧
    (∀ (now : ℚ) (s : TimeContext), s.logger = true →
      (enter now s).2 = [.logInfo (s.task_name ++ "...")]) := by
  refine ⟨?_, ?_, ?_⟩
  · intro now s
    rfl
  · intro now s h
    simp [enter, enterMsg, h]
  · intro now s h
    simp [enter, enterMsg, h]

/-- C8 witness: entering task `"x"` at clock 5 without a logger records
start 5 and writes `"x ...\t"` then flushes; with a logger it logs
`"x..."`. -/
theorem enter_records_start_and_emits_message_wit :
    ((enter 5 (init "x" false)).1.start = 5) ∧
    ((enter 5 (init "x" false)).2 =
      [.write ((init "x" false).task_name ++ " ...\t"), .flush]) ∧
    ((enter 5 (init "x" true)).2 =
      [.logInfo ((init "x" true).task_name ++ "...")]) :=
  ⟨enter_records_start_and_emits_message.1 5 (init "x" false),
   enter_records_start_and_emits_message.2.1 5 (init "x" false) rfl,
   enter_records_start_and_emits_message.2.2 5 (init "x" true) rfl⟩

end TimeContext
